import Mathlib

/-
  Verification of the ECS wasm grid game (src/ecs_wasm_game/src/lib.rs).

  Shallow embedding conventions:
  - `f64` coordinates are modelled as `ℚ` (every value produced by the program —
    integer grid coordinates times an integer cell size, and pointer coordinates —
    is an exactly representable double, and all operations used on them
    (+, *, ≤, ≥) are exact on those values).
  - `u8` colour channels and the `u32` entity-id counter are modelled as `Nat`;
    the one place where 32-bit overflow matters — `next_entity_id += 1` in
    `World::create_entity` — is modelled explicitly with `% 2^32`
    (release-profile wrapping semantics).
  - `HashMap<EntityId, T>` is modelled extensionally as `Nat → Option T`.
  - The canvas (a pure output sink) and the raw `WebSocket` object are not part
    of the state that the claims talk about; the transport is modelled by a
    flag `ws : Bool` ("a socket is attached") plus the list of outbound
    messages a call produces.  `handle_click` takes the pointer coordinates
    already translated to the canvas-local space (the subtraction of the
    bounding rectangle happens before the logic under verification).
  - The `onmessage` closure's colour-update logic is `applyMessage`;
    JSON encoding/decoding is done by the external crate `serde_json`, so it is
    modelled from the spec's wire format (§6) as `MessageType.toJson` /
    `MessageType.fromJson`.
-/

set_option maxRecDepth 100000

unseal Rat.mul Rat.add

/-- The wire messages (`enum MessageType` in lib.rs): `Click { x, y }` with
`usize` fields and `ColorUpdate { entity, r, g, b }` with a `u32` entity and
`u8` channels, all modelled as `Nat`. -/
inductive MessageType where
  | Click (x y : Nat)
  | ColorUpdate (entity r g b : Nat)
deriving DecidableEq

/-- Proof-layer helper: the entity id a wire message refers to, used to state
the ordering of the messages `handle_click` emits (its output holds only
`ColorUpdate`s; the value on `Click` is irrelevant). -/
def MessageType.entity : MessageType → Nat
  | MessageType.Click _ _ => 0
  | MessageType.ColorUpdate e _ _ _ => e

/-- `struct Position { x: f64, y: f64 }`. -/
structure Position where
  x : ℚ
  y : ℚ
deriving DecidableEq

/-- `struct Size { width: f64, height: f64 }`. -/
structure Size where
  width : ℚ
  height : ℚ
deriving DecidableEq

/-- `struct Color { r: u8, g: u8, b: u8 }`. -/
structure Color where
  r : Nat
  g : Nat
  b : Nat
deriving DecidableEq

/-- `type EntityId = u32`. -/
abbrev EntityId := Nat

/-- The size of the `u32` id space, `2^32`. -/
def u32Size : Nat := 4294967296

/-- `struct ComponentStorage<T> { components: HashMap<EntityId, T> }`,
modelled extensionally. -/
structure ComponentStorage (T : Type) where
  components : EntityId → Option T

/-- `ComponentStorage::new`. -/
def ComponentStorage.new {T : Type} : ComponentStorage T :=
  ⟨fun _ => none⟩

/-- `ComponentStorage::insert`: unconditional upsert. -/
def ComponentStorage.insert {T : Type} (s : ComponentStorage T)
    (entity : EntityId) (component : T) : ComponentStorage T :=
  ⟨fun k => if k = entity then some component else s.components k⟩

/-- `ComponentStorage::get` (also standing in for `get_mut` lookups). -/
def ComponentStorage.get {T : Type} (s : ComponentStorage T)
    (entity : EntityId) : Option T :=
  s.components entity

/-- `struct World`: the id allocator and the three component storages. -/
structure World where
  next_entity_id : Nat
  positions : ComponentStorage Position
  sizes : ComponentStorage Size
  colors : ComponentStorage Color

/-- `World::new`. -/
def World.new : World :=
  { next_entity_id := 0
    positions := ComponentStorage.new
    sizes := ComponentStorage.new
    colors := ComponentStorage.new }

/-- `World::create_entity`: returns the current counter and increments it.
The counter is a `u32`; the unchecked `+= 1` is modelled with wraparound
modulo `2^32` (release-profile semantics of Rust integer overflow). -/
def World.create_entity (w : World) : EntityId × World :=
  (w.next_entity_id, { w with next_entity_id := (w.next_entity_id + 1) % u32Size })

/-- `World::add_position`. -/
def World.add_position (w : World) (entity : EntityId) (position : Position) : World :=
  { w with positions := w.positions.insert entity position }

/-- `World::add_size`. -/
def World.add_size (w : World) (entity : EntityId) (size : Size) : World :=
  { w with sizes := w.sizes.insert entity size }

/-- `World::add_color`. -/
def World.add_color (w : World) (entity : EntityId) (color : Color) : World :=
  { w with colors := w.colors.insert entity color }

/-- `struct Game`: the world, whether a socket is attached (`ws: Option<WebSocket>`,
modelled as a flag), and the grid size.  Canvas and 2d context are pure output
sinks and are not modelled. -/
structure Game where
  world : World
  ws : Bool
  grid_size : Nat

/-- `Game::new`: fresh world, no socket, `grid_size: 8`. -/
def Game.new : Game :=
  { world := World.new, ws := false, grid_size := 8 }

/-- `Game::connect`: attaches the socket (the registered `onmessage` logic is
modelled separately as `applyMessage`). -/
def Game.connect (g : Game) : Game :=
  { g with ws := true }

/-- The body of the nested initialization loop in `Game::init` for one cell
`(x, y)`: create an entity and attach Position `(x·C, y·C)`, Size `(C, C)` and
Color `(255,255,255)`. -/
def initCell (cell_size : ℚ) (y x : Nat) (w : World) : World :=
  let r := w.create_entity
  let entity := r.1
  let w1 := r.2
  let w2 := w1.add_position entity { x := (x : ℚ) * cell_size, y := (y : ℚ) * cell_size }
  let w3 := w2.add_size entity { width := cell_size, height := cell_size }
  w3.add_color entity { r := 255, g := 255, b := 255 }

/-- The nested loop of `Game::init` (`for y in 0..grid_size { for x in 0..grid_size }`),
with the cell size as a parameter (the code fixes it to `50.0` in `Game.init`). -/
def initGrid (grid_size : Nat) (cell_size : ℚ) (w : World) : World :=
  (List.range grid_size).foldl
    (fun wy y => (List.range grid_size).foldl (fun wx x => initCell cell_size y x wx) wy) w

/-- `Game::init`: populate the world with a `grid_size × grid_size` grid of
cells of size `50.0`. -/
def Game.init (g : Game) : Game :=
  { g with world := initGrid g.grid_size 50 g.world }

/-- Proof-layer abbreviation: the inner loop of `Game::init` (one row `y`,
columns `0..X`). -/
def rowFold (cell_size : ℚ) (y X : Nat) (w : World) : World :=
  (List.range X).foldl (fun wx x => initCell cell_size y x wx) w

/-- Test fixture: a world holding one entity that was given a Position and a
Size through the `World` API but no Color. -/
def posSizeOnlyWorld : World :=
  let r := World.new.create_entity
  (r.2.add_position r.1 { x := 0, y := 0 }).add_size r.1 { width := 50, height := 50 }

/-- The per-channel complement applied by `Game::handle_click`
(`color.r = 255 - color.r`, etc.; `u8` subtraction, which cannot underflow
for channel values ≤ 255, agrees with truncated `Nat` subtraction). -/
def toggleColor (c : Color) : Color :=
  { r := 255 - c.r, g := 255 - c.g, b := 255 - c.b }

/-- One iteration of the `for entity in 0..world.next_entity_id` loop of
`Game::handle_click`: if the entity has a Position and a Size and the point is
inside its rectangle (boundary inclusive), toggle its Color (when it has one)
and, when a socket is attached, append the corresponding `ColorUpdate` to the
outbound messages.  There is no early exit in the source loop. -/
def clickStep (ws : Bool) (x y : ℚ) (acc : World × List MessageType)
    (entity : EntityId) : World × List MessageType :=
  match acc.1.positions.get entity, acc.1.sizes.get entity with
  | some pos, some size =>
    if x ≥ pos.x ∧ x ≤ pos.x + size.width ∧ y ≥ pos.y ∧ y ≤ pos.y + size.height then
      match acc.1.colors.get entity with
      | some color =>
        let newColor := toggleColor color
        ({ acc.1 with colors := acc.1.colors.insert entity newColor },
          if ws then
            acc.2 ++ [MessageType.ColorUpdate entity newColor.r newColor.g newColor.b]
          else acc.2)
      | none => acc
    else acc
  | _, _ => acc

/-- `Game::handle_click` on canvas-local coordinates `(x, y)`: scan all
entities in ascending id order, toggling every hit cell; returns the updated
world and the outbound messages produced (sends whose transmission fails are
ignored by the source, so the world result never depends on transmission). -/
def Game.handle_click (g : Game) (x y : ℚ) : World × List MessageType :=
  (List.range g.world.next_entity_id).foldl (clickStep g.ws x y) (g.world, [])

/-- The state change performed by the `onmessage` closure in `Game::connect`
for a decoded message: a `ColorUpdate` overwrites the entity's Color when the
entity is present in the Color storage (`get_mut` then field assignment) and is
dropped otherwise; every other message is ignored (`_ => {}`).  Redrawing the
canvas is a pure output effect and is not modelled. -/
def applyMessage (w : World) (m : MessageType) : World :=
  match m with
  | MessageType.ColorUpdate entity r g b =>
    match w.colors.get entity with
    | some _ => { w with colors := w.colors.insert entity { r := r, g := g, b := b } }
    | none => w
  | _ => w

/-- The full inbound path of the `onmessage` closure: decode the payload text;
on success apply the message, on failure do nothing (the closure has no other
exit — it never raises to the caller). -/
def handleIncoming (decode : String → Option MessageType) (s : String) (w : World) : World :=
  match decode s with
  | some m => applyMessage w m
  | none => w

/-- Modelled from the spec: `serde_json::to_string` for `MessageType`
(the crate `serde_json` is external to src/).  §6 gives the wire format — an
externally tagged union with fields in declaration order:
`{"Click":{"x":u,"y":u}}` and `{"ColorUpdate":{"entity":u,"r":u,"g":u,"b":u}}`. -/
def MessageType.toJson : MessageType → String
  | MessageType.Click x y =>
      "\x7b\"Click\":\x7b\"x\":" ++ toString x ++ ",\"y\":" ++ toString y ++ "\x7d\x7d"
  | MessageType.ColorUpdate entity r g b =>
      "\x7b\"ColorUpdate\":\x7b\"entity\":" ++ toString entity ++ ",\"r\":" ++ toString r
        ++ ",\"g\":" ++ toString g ++ ",\"b\":" ++ toString b ++ "\x7d\x7d"

/-- Consume an exact literal character sequence from the input, or fail. -/
def expectChars : List Char → List Char → Option (List Char)
  | [], s => some s
  | _ :: _, [] => none
  | c :: p, d :: s => if c = d then expectChars p s else none

/-- Accumulate further decimal digits of a number already started. -/
def parseNatCore : List Char → Nat → Nat × List Char
  | [], acc => (acc, [])
  | c :: rest, acc =>
    if c.isDigit then parseNatCore rest (acc * 10 + (c.toNat - 48))
    else (acc, c :: rest)

/-- Parse a nonempty decimal number. -/
def parseNat : List Char → Option (Nat × List Char)
  | [] => none
  | c :: rest => if c.isDigit then some (parseNatCore rest (c.toNat - 48)) else none

/-- Literal head of a serialized `Click` message. -/
def clickHead : String := "\x7b\"Click\":\x7b\"x\":"

/-- Literal head of a serialized `ColorUpdate` message. -/
def colorUpdateHead : String := "\x7b\"ColorUpdate\":\x7b\"entity\":"

/-- Literal `,"y":` separator. -/
def sepY : String := ",\"y\":"

/-- Literal `,"r":` separator. -/
def sepR : String := ",\"r\":"

/-- Literal `,"g":` separator. -/
def sepG : String := ",\"g\":"

/-- Literal `,"b":` separator. -/
def sepB : String := ",\"b\":"

/-- Literal closing braces of a message body. -/
def closeBody : String := "\x7d\x7d"

/-- Modelled from the spec: decoding of a `Click` payload in the canonical
wire format of §6, with the `usize` range check serde performs. -/
def parseClickMsg (s : List Char) : Option MessageType := do
  let s1 ← expectChars clickHead.data s
  let (x, s2) ← parseNat s1
  let s3 ← expectChars sepY.data s2
  let (y, s4) ← parseNat s3
  let s5 ← expectChars closeBody.data s4
  if s5 = [] ∧ x < u32Size ∧ y < u32Size then some (MessageType.Click x y) else none

/-- Modelled from the spec: decoding of a `ColorUpdate` payload in the
canonical wire format of §6, with the `u32`/`u8` range checks serde performs. -/
def parseColorUpdateMsg (s : List Char) : Option MessageType := do
  let s1 ← expectChars colorUpdateHead.data s
  let (e, s2) ← parseNat s1
  let s3 ← expectChars sepR.data s2
  let (r, s4) ← parseNat s3
  let s5 ← expectChars sepG.data s4
  let (g, s6) ← parseNat s5
  let s7 ← expectChars sepB.data s6
  let (b, s8) ← parseNat s7
  let s9 ← expectChars closeBody.data s8
  if s9 = [] ∧ e < u32Size ∧ r ≤ 255 ∧ g ≤ 255 ∧ b ≤ 255 then
    some (MessageType.ColorUpdate e r g b)
  else none

/-- Modelled from the spec: `serde_json::from_str::<MessageType>` on the
canonical wire format (§6) — a payload that matches neither tagged shape
fails to decode. -/
def MessageType.fromJson (s : String) : Option MessageType :=
  match parseClickMsg s.data with
  | some m => some m
  | none => parseColorUpdateMsg s.data

/-- The spec's World invariant (§3): an entity that has a Color also has a
Position and a Size. -/
def WorldInv (w : World) : Prop :=
  ∀ e : EntityId, (w.colors.get e).isSome → (w.positions.get e).isSome ∧ (w.sizes.get e).isSome

/-! ### Basic storage lemmas -/

lemma ComponentStorage.get_insert {T : Type} (s : ComponentStorage T) (e k : EntityId) (v : T) :
    (s.insert e v).get k = if k = e then some v else s.get k := rfl

lemma ComponentStorage.get_insert_self {T : Type} (s : ComponentStorage T) (e : EntityId) (v : T) :
    (s.insert e v).get e = some v := by simp [get_insert]

lemma ComponentStorage.get_insert_ne {T : Type} (s : ComponentStorage T) (e k : EntityId) (v : T)
    (h : k ≠ e) : (s.insert e v).get k = s.get k := by simp [get_insert, h]

/-! ### Lemmas about one step of the click loop -/

lemma clickStep_positions (ws : Bool) (x y : ℚ) (acc : World × List MessageType) (e : EntityId) :
    (clickStep ws x y acc e).1.positions = acc.1.positions := by
  unfold clickStep
  split <;> try rfl
  split <;> try rfl
  split <;> rfl

lemma clickStep_sizes (ws : Bool) (x y : ℚ) (acc : World × List MessageType) (e : EntityId) :
    (clickStep ws x y acc e).1.sizes = acc.1.sizes := by
  unfold clickStep
  split <;> try rfl
  split <;> try rfl
  split <;> rfl

lemma clickStep_next (ws : Bool) (x y : ℚ) (acc : World × List MessageType) (e : EntityId) :
    (clickStep ws x y acc e).1.next_entity_id = acc.1.next_entity_id := by
  unfold clickStep
  split <;> try rfl
  split <;> try rfl
  split <;> rfl

lemma clickStep_colors_ne (ws : Bool) (x y : ℚ) (acc : World × List MessageType)
    (e k : EntityId) (hk : k ≠ e) :
    (clickStep ws x y acc e).1.colors.get k = acc.1.colors.get k := by
  unfold clickStep
  split <;> try rfl
  split <;> try rfl
  split <;> try rfl
  simp [ComponentStorage.get_insert_ne _ _ _ _ hk]

lemma clickStep_of_colors_none (ws : Bool) (x y : ℚ) (acc : World × List MessageType)
    (e : EntityId) (hc : acc.1.colors.get e = none) :
    clickStep ws x y acc e = acc := by
  unfold clickStep
  split <;> try rfl
  split <;> try rfl
  split <;> try rfl
  simp_all

lemma clickStep_colors_none_preserved (ws : Bool) (x y : ℚ) (acc : World × List MessageType)
    (e k : EntityId) (hk : acc.1.colors.get k = none) :
    (clickStep ws x y acc e).1.colors.get k = none := by
  by_cases h : k = e
  · subst h
    rw [clickStep_of_colors_none ws x y acc k hk]
    exact hk
  · rw [clickStep_colors_ne ws x y acc e k h]
    exact hk

lemma clickStep_toggle (ws : Bool) (x y : ℚ) (acc : World × List MessageType)
    (e : EntityId) (pos : Position) (size : Size) (c : Color)
    (hp : acc.1.positions.get e = some pos) (hs : acc.1.sizes.get e = some size)
    (hc : acc.1.colors.get e = some c)
    (hhit : x ≥ pos.x ∧ x ≤ pos.x + size.width ∧ y ≥ pos.y ∧ y ≤ pos.y + size.height) :
    (clickStep ws x y acc e).1.colors.get e = some (toggleColor c) := by
  simp only [clickStep, hp, hs, hc]
  rw [if_pos hhit]
  split <;> simp [ComponentStorage.get_insert_self]

lemma clickStep_fst_irrel (ws₁ ws₂ : Bool) (x y : ℚ) (w : World) (m₁ m₂ : List MessageType)
    (e : EntityId) :
    (clickStep ws₁ x y (w, m₁) e).1 = (clickStep ws₂ x y (w, m₂) e).1 := by
  rcases hp : w.positions.get e with _ | pos <;> rcases hs : w.sizes.get e with _ | size <;>
    simp only [clickStep, hp, hs]
  rcases hc : w.colors.get e with _ | c <;> simp only [hc] <;> split_ifs <;> rfl

lemma clickStep_snd_sub (ws : Bool) (x y : ℚ) (acc : World × List MessageType) (e : EntityId) :
    (clickStep ws x y acc e).2 = acc.2
    ∨ ∃ r g b, (clickStep ws x y acc e).2 = acc.2 ++ [MessageType.ColorUpdate e r g b] := by
  unfold clickStep
  split <;> try exact Or.inl rfl
  split <;> try exact Or.inl rfl
  split <;> try exact Or.inl rfl
  split
  · exact Or.inr ⟨_, _, _, rfl⟩
  · exact Or.inl rfl

/-! ### Lemmas about the whole click loop -/

lemma clickFold_positions (ws : Bool) (x y : ℚ) :
    ∀ (l : List EntityId) (acc : World × List MessageType),
    (l.foldl (clickStep ws x y) acc).1.positions = acc.1.positions := by
  intro l
  induction l with
  | nil => intro acc; rfl
  | cons a t ih => intro acc; rw [List.foldl_cons, ih, clickStep_positions]

lemma clickFold_sizes (ws : Bool) (x y : ℚ) :
    ∀ (l : List EntityId) (acc : World × List MessageType),
    (l.foldl (clickStep ws x y) acc).1.sizes = acc.1.sizes := by
  intro l
  induction l with
  | nil => intro acc; rfl
  | cons a t ih => intro acc; rw [List.foldl_cons, ih, clickStep_sizes]

lemma clickFold_next (ws : Bool) (x y : ℚ) :
    ∀ (l : List EntityId) (acc : World × List MessageType),
    (l.foldl (clickStep ws x y) acc).1.next_entity_id = acc.1.next_entity_id := by
  intro l
  induction l with
  | nil => intro acc; rfl
  | cons a t ih => intro acc; rw [List.foldl_cons, ih, clickStep_next]

lemma clickFold_fst_irrel (ws₁ ws₂ : Bool) (x y : ℚ) :
    ∀ (l : List EntityId) (w : World) (m₁ m₂ : List MessageType),
    (l.foldl (clickStep ws₁ x y) (w, m₁)).1 = (l.foldl (clickStep ws₂ x y) (w, m₂)).1 := by
  intro l
  induction l with
  | nil => intro w m₁ m₂; rfl
  | cons a t ih =>
    intro w m₁ m₂
    rw [List.foldl_cons, List.foldl_cons]
    have h := clickStep_fst_irrel ws₁ ws₂ x y w m₁ m₂ a
    have e₁ : clickStep ws₁ x y (w, m₁) a
        = ((clickStep ws₁ x y (w, m₁) a).1, (clickStep ws₁ x y (w, m₁) a).2) := rfl
    have e₂ : clickStep ws₂ x y (w, m₂) a
        = ((clickStep ws₂ x y (w, m₂) a).1, (clickStep ws₂ x y (w, m₂) a).2) := rfl
    rw [e₁, e₂, h]
    exact ih _ _ _

lemma clickFold_colors_not_mem (ws : Bool) (x y : ℚ) :
    ∀ (l : List EntityId) (acc : World × List MessageType) (e : EntityId), e ∉ l →
    (l.foldl (clickStep ws x y) acc).1.colors.get e = acc.1.colors.get e := by
  intro l
  induction l with
  | nil => intro acc e _; rfl
  | cons a t ih =>
    intro acc e he
    rw [List.foldl_cons, ih _ e (fun h => he (List.mem_cons_of_mem a h)),
      clickStep_colors_ne ws x y acc a e (fun h => he (h ▸ List.mem_cons_self a t))]

lemma clickFold_colors_none (ws : Bool) (x y : ℚ) :
    ∀ (l : List EntityId) (acc : World × List MessageType) (e : EntityId),
    acc.1.colors.get e = none →
    (l.foldl (clickStep ws x y) acc).1.colors.get e = none := by
  intro l
  induction l with
  | nil => intro acc e h; exact h
  | cons a t ih =>
    intro acc e h
    rw [List.foldl_cons]
    exact ih _ e (clickStep_colors_none_preserved ws x y acc a e h)

lemma clickFold_toggle (ws : Bool) (x y : ℚ) :
    ∀ (l : List EntityId) (acc : World × List MessageType) (e : EntityId)
      (pos : Position) (size : Size) (c : Color),
    l.Nodup → e ∈ l →
    acc.1.positions.get e = some pos → acc.1.sizes.get e = some size →
    acc.1.colors.get e = some c →
    (x ≥ pos.x ∧ x ≤ pos.x + size.width ∧ y ≥ pos.y ∧ y ≤ pos.y + size.height) →
    (l.foldl (clickStep ws x y) acc).1.colors.get e = some (toggleColor c) := by
  intro l
  induction l with
  | nil => intro acc e pos size c _ he; exact absurd he (List.not_mem_nil e)
  | cons a t ih =>
    intro acc e pos size c hnd he hp hs hc hhit
    rw [List.foldl_cons]
    rcases List.mem_cons.mp he with rfl | het
    · have hnotin : e ∉ t := (List.nodup_cons.mp hnd).1
      rw [clickFold_colors_not_mem ws x y t _ e hnotin]
      exact clickStep_toggle ws x y acc e pos size c hp hs hc hhit
    · have hne : e ≠ a := fun h => (List.nodup_cons.mp hnd).1 (h ▸ het)
      refine ih _ e pos size c (List.nodup_cons.mp hnd).2 het ?_ ?_ ?_ hhit
      · rw [clickStep_positions]; exact hp
      · rw [clickStep_sizes]; exact hs
      · rw [clickStep_colors_ne ws x y acc a e hne]; exact hc

lemma clickStep_id_of_miss (ws : Bool) (x y : ℚ) (acc : World × List MessageType) (a : EntityId)
    (h : ∀ pos size, acc.1.positions.get a = some pos → acc.1.sizes.get a = some size →
      (x ≥ pos.x ∧ x ≤ pos.x + size.width ∧ y ≥ pos.y ∧ y ≤ pos.y + size.height) →
      acc.1.colors.get a = none) :
    clickStep ws x y acc a = acc := by
  rcases hp : acc.1.positions.get a with _ | pos <;> rcases hs : acc.1.sizes.get a with _ | size <;>
    simp only [clickStep, hp, hs]
  by_cases hhit : x ≥ pos.x ∧ x ≤ pos.x + size.width ∧ y ≥ pos.y ∧ y ≤ pos.y + size.height
  · rw [if_pos hhit, h pos size hp hs hhit]
  · rw [if_neg hhit]

lemma clickFold_id_of_all_miss (ws : Bool) (x y : ℚ) :
    ∀ (l : List EntityId) (acc : World × List MessageType),
    (∀ e ∈ l, ∀ pos size, acc.1.positions.get e = some pos → acc.1.sizes.get e = some size →
      (x ≥ pos.x ∧ x ≤ pos.x + size.width ∧ y ≥ pos.y ∧ y ≤ pos.y + size.height) →
      acc.1.colors.get e = none) →
    l.foldl (clickStep ws x y) acc = acc := by
  intro l
  induction l with
  | nil => intro acc _; rfl
  | cons a t ih =>
    intro acc h
    rw [List.foldl_cons, clickStep_id_of_miss ws x y acc a (h a (List.mem_cons_self a t))]
    exact ih acc (fun e he => h e (List.mem_cons_of_mem a he))

lemma clickFold_no_msg_for (ws : Bool) (x y : ℚ) :
    ∀ (l : List EntityId) (acc : World × List MessageType) (e : EntityId),
    acc.1.colors.get e = none →
    ∀ r g b, MessageType.ColorUpdate e r g b ∈ (l.foldl (clickStep ws x y) acc).2 →
      MessageType.ColorUpdate e r g b ∈ acc.2 := by
  intro l
  induction l with
  | nil => intro acc e _ r g b hm; exact hm
  | cons a t ih =>
    intro acc e hnone r g b hm
    rw [List.foldl_cons] at hm
    have hnone' : (clickStep ws x y acc a).1.colors.get e = none :=
      clickStep_colors_none_preserved ws x y acc a e hnone
    have hm' := ih (clickStep ws x y acc a) e hnone' r g b hm
    by_cases hae : e = a
    · subst hae
      rw [clickStep_of_colors_none ws x y acc e hnone] at hm'
      exact hm'
    · rcases clickStep_snd_sub ws x y acc a with hsub | ⟨r', g', b', hsub⟩
      · rw [hsub] at hm'; exact hm'
      · rw [hsub] at hm'
        rcases List.mem_append.mp hm' with h1 | h2
        · exact h1
        · exact absurd (List.mem_singleton.mp h2) (fun h => hae (by cases h; rfl))

lemma clickStep_snd_hit (x y : ℚ) (acc : World × List MessageType) (e : EntityId)
    (pos : Position) (size : Size) (c : Color)
    (hp : acc.1.positions.get e = some pos) (hs : acc.1.sizes.get e = some size)
    (hc : acc.1.colors.get e = some c)
    (hhit : x ≥ pos.x ∧ x ≤ pos.x + size.width ∧ y ≥ pos.y ∧ y ≤ pos.y + size.height) :
    (clickStep true x y acc e).2
      = acc.2 ++ [MessageType.ColorUpdate e (toggleColor c).r (toggleColor c).g
          (toggleColor c).b] := by
  simp only [clickStep, hp, hs, hc]
  rw [if_pos hhit]
  simp

lemma clickFold_msgs_mono (ws : Bool) (x y : ℚ) :
    ∀ (l : List EntityId) (acc : World × List MessageType) (m : MessageType),
    m ∈ acc.2 → m ∈ (l.foldl (clickStep ws x y) acc).2 := by
  intro l
  induction l with
  | nil => intro acc m hm; exact hm
  | cons a t ih =>
    intro acc m hm
    rw [List.foldl_cons]
    refine ih _ m ?_
    rcases clickStep_snd_sub ws x y acc a with h | ⟨r, g, b, h⟩
    · rw [h]; exact hm
    · rw [h]; exact List.mem_append_left _ hm

lemma clickFold_msg_of_hit (x y : ℚ) :
    ∀ (l : List EntityId) (acc : World × List MessageType) (e : EntityId)
      (pos : Position) (size : Size) (c : Color),
    e ∈ l →
    acc.1.positions.get e = some pos → acc.1.sizes.get e = some size →
    acc.1.colors.get e = some c →
    (x ≥ pos.x ∧ x ≤ pos.x + size.width ∧ y ≥ pos.y ∧ y ≤ pos.y + size.height) →
    MessageType.ColorUpdate e (toggleColor c).r (toggleColor c).g (toggleColor c).b
      ∈ (l.foldl (clickStep true x y) acc).2 := by
  intro l
  induction l with
  | nil => intro acc e pos size c he; exact absurd he (List.not_mem_nil e)
  | cons a t ih =>
    intro acc e pos size c he hp hs hc hhit
    rw [List.foldl_cons]
    by_cases hea : e = a
    · subst hea
      refine clickFold_msgs_mono true x y t _ _ ?_
      rw [clickStep_snd_hit x y acc e pos size c hp hs hc hhit]
      exact List.mem_append_right _ (List.mem_singleton_self _)
    · have he' : e ∈ t := by
        rcases List.mem_cons.mp he with h | h
        · exact absurd h hea
        · exact h
      refine ih _ e pos size c he' ?_ ?_ ?_ hhit
      · rw [clickStep_positions]; exact hp
      · rw [clickStep_sizes]; exact hs
      · rw [clickStep_colors_ne true x y acc a e hea]; exact hc

lemma clickFold_msgs_sublist (ws : Bool) (x y : ℚ) :
    ∀ (l : List EntityId) (acc : World × List MessageType),
    ∃ t, (l.foldl (clickStep ws x y) acc).2 = acc.2 ++ t
      ∧ List.Sublist (t.map MessageType.entity) l := by
  intro l
  induction l with
  | nil => intro acc; exact ⟨[], by simp, List.nil_sublist []⟩
  | cons a t ih =>
    intro acc
    rw [List.foldl_cons]
    obtain ⟨t', h1, h2⟩ := ih (clickStep ws x y acc a)
    rcases clickStep_snd_sub ws x y acc a with h | ⟨r, g, b, h⟩
    · exact ⟨t', by rw [h1, h], List.Sublist.cons a h2⟩
    · refine ⟨MessageType.ColorUpdate a r g b :: t', ?_, ?_⟩
      · rw [h1, h, List.append_assoc]
        rfl
      · simp only [List.map_cons]
        exact List.Sublist.cons₂ a h2

/-! ### Lemmas about grid initialization -/

lemma initGrid_eq_rowFold (N : Nat) (C : ℚ) (w : World) :
    initGrid N C w = (List.range N).foldl (fun wy y => rowFold C y N wy) w := rfl

lemma initCell_next (C : ℚ) (yv xv : Nat) (w : World) :
    (initCell C yv xv w).next_entity_id = (w.next_entity_id + 1) % u32Size := rfl

lemma initCell_positions_get (C : ℚ) (yv xv : Nat) (w : World) (k : EntityId) :
    (initCell C yv xv w).positions.get k
      = if k = w.next_entity_id then some { x := (xv : ℚ) * C, y := (yv : ℚ) * C }
        else w.positions.get k := rfl

lemma initCell_sizes_get (C : ℚ) (yv xv : Nat) (w : World) (k : EntityId) :
    (initCell C yv xv w).sizes.get k
      = if k = w.next_entity_id then some { width := C, height := C }
        else w.sizes.get k := rfl

lemma initCell_colors_get (C : ℚ) (yv xv : Nat) (w : World) (k : EntityId) :
    (initCell C yv xv w).colors.get k
      = if k = w.next_entity_id then some { r := 255, g := 255, b := 255 }
        else w.colors.get k := rfl

lemma rowFold_succ (C : ℚ) (yv X : Nat) (w : World) :
    rowFold C yv (X + 1) w = initCell C yv X (rowFold C yv X w) := by
  rw [rowFold, List.range_succ, List.foldl_append, List.foldl_cons, List.foldl_nil, rowFold]

lemma rowFold_spec (C : ℚ) (yv : Nat) :
    ∀ (X : Nat) (w : World), w.next_entity_id + X < u32Size →
    (rowFold C yv X w).next_entity_id = w.next_entity_id + X
    ∧ (∀ j, j < X →
        (rowFold C yv X w).positions.get (w.next_entity_id + j)
            = some { x := (j : ℚ) * C, y := (yv : ℚ) * C }
        ∧ (rowFold C yv X w).sizes.get (w.next_entity_id + j)
            = some { width := C, height := C }
        ∧ (rowFold C yv X w).colors.get (w.next_entity_id + j)
            = some { r := 255, g := 255, b := 255 })
    ∧ (∀ k, k < w.next_entity_id ∨ w.next_entity_id + X ≤ k →
        (rowFold C yv X w).positions.get k = w.positions.get k
        ∧ (rowFold C yv X w).sizes.get k = w.sizes.get k
        ∧ (rowFold C yv X w).colors.get k = w.colors.get k) := by
  intro X
  induction X with
  | zero =>
    intro w _
    refine ⟨rfl, fun j hj => absurd hj (Nat.not_lt_zero j), fun k _ => ⟨rfl, rfl, rfl⟩⟩
  | succ X ih =>
    intro w hlt
    have hX : w.next_entity_id + X < u32Size := by omega
    obtain ⟨ih1, ih2, ih3⟩ := ih w hX
    rw [rowFold_succ]
    have hnext : (initCell C yv X (rowFold C yv X w)).next_entity_id
        = w.next_entity_id + (X + 1) := by
      rw [initCell_next, ih1, Nat.mod_eq_of_lt (by omega)]
      omega
    refine ⟨hnext, ?_, ?_⟩
    · intro j hj
      rcases Nat.lt_succ_iff_lt_or_eq.mp hj with hjX | heq
      · have hne : w.next_entity_id + j ≠ (rowFold C yv X w).next_entity_id := by
          rw [ih1]; omega
        rw [initCell_positions_get, if_neg hne, initCell_sizes_get, if_neg hne,
          initCell_colors_get, if_neg hne]
        exact ih2 j hjX
      · rw [heq]
        have heq2 : w.next_entity_id + X = (rowFold C yv X w).next_entity_id := ih1.symm
        rw [initCell_positions_get, if_pos heq2, initCell_sizes_get, if_pos heq2,
          initCell_colors_get, if_pos heq2]
        exact ⟨rfl, rfl, rfl⟩
    · intro k hk
      have hne : k ≠ (rowFold C yv X w).next_entity_id := by rw [ih1]; omega
      rw [initCell_positions_get, if_neg hne, initCell_sizes_get, if_neg hne,
        initCell_colors_get, if_neg hne]
      exact ih3 k (by omega)

lemma gridFold_spec (N : Nat) (C : ℚ) (hN : N * N < u32Size) :
    ∀ (R : Nat), R ≤ N →
    ((List.range R).foldl (fun wy y => rowFold C y N wy) World.new).next_entity_id = R * N
    ∧ (∀ yv xv, yv < R → xv < N →
        ((List.range R).foldl (fun wy y => rowFold C y N wy) World.new).positions.get (yv * N + xv)
            = some { x := (xv : ℚ) * C, y := (yv : ℚ) * C }
        ∧ ((List.range R).foldl (fun wy y => rowFold C y N wy) World.new).sizes.get (yv * N + xv)
            = some { width := C, height := C }
        ∧ ((List.range R).foldl (fun wy y => rowFold C y N wy) World.new).colors.get (yv * N + xv)
            = some { r := 255, g := 255, b := 255 })
    ∧ (∀ k, R * N ≤ k →
        ((List.range R).foldl (fun wy y => rowFold C y N wy) World.new).positions.get k = none
        ∧ ((List.range R).foldl (fun wy y => rowFold C y N wy) World.new).sizes.get k = none
        ∧ ((List.range R).foldl (fun wy y => rowFold C y N wy) World.new).colors.get k = none) := by
  intro R
  induction R with
  | zero =>
    intro _
    exact ⟨by simp [World.new], fun yv xv hy _ => absurd hy (Nat.not_lt_zero yv),
      fun k _ => ⟨rfl, rfl, rfl⟩⟩
  | succ R ih =>
    intro hRN
    have hR : R ≤ N := by omega
    obtain ⟨ih1, ih2, ih3⟩ := ih hR
    have hrowlt : ((List.range R).foldl (fun wy y => rowFold C y N wy) World.new).next_entity_id + N
        < u32Size := by
      rw [ih1]
      calc R * N + N = (R + 1) * N := by ring
        _ ≤ N * N := Nat.mul_le_mul_right N hRN
        _ < u32Size := hN
    obtain ⟨row1, row2, row3⟩ :=
      rowFold_spec C R N ((List.range R).foldl (fun wy y => rowFold C y N wy) World.new) hrowlt
    rw [List.range_succ, List.foldl_append, List.foldl_cons, List.foldl_nil]
    refine ⟨?_, ?_, ?_⟩
    · rw [row1, ih1]; ring
    · intro yv xv hy hx
      rcases Nat.lt_succ_iff_lt_or_eq.mp hy with hyR | heq
      · have hkey : yv * N + xv < R * N := by
          have h1 : yv * N + N ≤ R * N := by
            calc yv * N + N = (yv + 1) * N := by ring
              _ ≤ R * N := Nat.mul_le_mul_right N (by omega)
          omega
        have := row3 (yv * N + xv) (by rw [ih1]; omega)
        rw [this.1, this.2.1, this.2.2]
        exact ih2 yv xv hyR hx
      · subst heq
        have hkey : yv * N + xv
            = ((List.range yv).foldl (fun wy y => rowFold C y N wy) World.new).next_entity_id
              + xv := by rw [ih1]
        rw [hkey]
        exact row2 xv hx
    · intro k hk
      have hge : ((List.range R).foldl (fun wy y => rowFold C y N wy) World.new).next_entity_id + N
          ≤ k := by
        rw [ih1]
        have : R * N + N = (R + 1) * N := by ring
        omega
      have := row3 k (Or.inr hge)
      rw [this.1, this.2.1, this.2.2]
      exact ih3 k (by omega)

lemma rowFold_next_mod (C : ℚ) (yv : Nat) :
    ∀ (X : Nat) (w : World), w.next_entity_id < u32Size →
    (rowFold C yv X w).next_entity_id = (w.next_entity_id + X) % u32Size := by
  intro X
  induction X with
  | zero =>
    intro w hw
    exact (Nat.mod_eq_of_lt hw).symm
  | succ X ih =>
    intro w hw
    rw [rowFold_succ, initCell_next, ih w hw, Nat.mod_add_mod]
    congr 1

lemma gridFold_next_mod (N : Nat) (C : ℚ) :
    ∀ (R : Nat) (w : World), w.next_entity_id < u32Size →
    ((List.range R).foldl (fun wy y => rowFold C y N wy) w).next_entity_id
      = (w.next_entity_id + R * N) % u32Size := by
  intro R
  induction R with
  | zero =>
    intro w hw
    simp [Nat.mod_eq_of_lt hw]
  | succ R ih =>
    intro w hw
    rw [List.range_succ, List.foldl_append, List.foldl_cons, List.foldl_nil]
    rw [rowFold_next_mod C R N _ (by rw [ih w hw]; exact Nat.mod_lt _ (by norm_num [u32Size]))]
    rw [ih w hw, Nat.mod_add_mod]
    congr 1
    ring

lemma initGrid_next_mod (N : Nat) (C : ℚ) :
    (initGrid N C World.new).next_entity_id = (N * N) % u32Size := by
  rw [initGrid_eq_rowFold, gridFold_next_mod N C N World.new (by norm_num [World.new, u32Size])]
  norm_num [World.new]

/-! ### Invariant preservation lemmas -/

lemma foldlPreserves {α β : Type} (P : β → Prop) (f : β → α → β)
    (hstep : ∀ b a, P b → P (f b a)) : ∀ (l : List α) (b : β), P b → P (l.foldl f b) := by
  intro l
  induction l with
  | nil => intro b hb; exact hb
  | cons a t ih => intro b hb; exact ih (f b a) (hstep b a hb)

lemma WorldInv_new : WorldInv World.new := by
  intro e h
  simp [World.new, ComponentStorage.new, ComponentStorage.get] at h

lemma initCell_inv (C : ℚ) (yv xv : Nat) (w : World) (h : WorldInv w) :
    WorldInv (initCell C yv xv w) := by
  intro e hc
  rw [initCell_colors_get] at hc
  rw [initCell_positions_get, initCell_sizes_get]
  by_cases he : e = w.next_entity_id
  · simp [he]
  · rw [if_neg he] at hc ⊢
    rw [if_neg he]
    exact h e hc

lemma initGrid_inv (N : Nat) (C : ℚ) (w : World) (h : WorldInv w) :
    WorldInv (initGrid N C w) := by
  rw [initGrid_eq_rowFold]
  refine foldlPreserves WorldInv _ ?_ _ w h
  intro b yv hb
  exact foldlPreserves WorldInv _ (fun b' xv hb' => initCell_inv C yv xv b' hb') _ b hb

lemma clickStep_inv (ws : Bool) (x y : ℚ) (acc : World × List MessageType) (e : EntityId)
    (h : WorldInv acc.1) : WorldInv (clickStep ws x y acc e).1 := by
  rcases hp : acc.1.positions.get e with _ | pos <;> rcases hs : acc.1.sizes.get e with _ | size <;>
    simp only [clickStep, hp, hs] <;> try exact h
  by_cases hhit : x ≥ pos.x ∧ x ≤ pos.x + size.width ∧ y ≥ pos.y ∧ y ≤ pos.y + size.height
  · rw [if_pos hhit]
    rcases hc : acc.1.colors.get e with _ | c <;> simp only [hc]
    · exact h
    · intro k hk
      by_cases hke : k = e
      · subst hke
        constructor
        · show (acc.1.positions.get k).isSome
          rw [hp]; rfl
        · show (acc.1.sizes.get k).isSome
          rw [hs]; rfl
      · rw [ComponentStorage.get_insert_ne _ _ _ _ hke] at hk
        exact h k hk
  · rw [if_neg hhit]
    exact h

lemma clickFold_inv (ws : Bool) (x y : ℚ) (l : List EntityId) (acc : World × List MessageType)
    (h : WorldInv acc.1) : WorldInv (l.foldl (clickStep ws x y) acc).1 :=
  foldlPreserves (fun b => WorldInv b.1) _ (fun b a hb => clickStep_inv ws x y b a hb) l acc h

lemma applyMessage_inv (w : World) (m : MessageType) (h : WorldInv w) :
    WorldInv (applyMessage w m) := by
  rcases m with _ | ⟨e, r, g, b⟩
  · exact h
  · rcases hc : w.colors.get e with _ | c <;> simp only [applyMessage, hc]
    · exact h
    · intro k hk
      by_cases hke : k = e
      · subst hke
        exact h k (by rw [hc]; rfl)
      · rw [ComponentStorage.get_insert_ne _ _ _ _ hke] at hk
        exact h k hk

/-! ### Lemmas about the inbound message handler -/

lemma applyMessage_unknown (w : World) (e r g b : Nat) (hc : w.colors.get e = none) :
    applyMessage w (MessageType.ColorUpdate e r g b) = w := by
  simp only [applyMessage, hc]

lemma applyMessage_known (w : World) (e r g b : Nat) (c : Color) (hc : w.colors.get e = some c) :
    applyMessage w (MessageType.ColorUpdate e r g b)
      = { w with colors := w.colors.insert e { r := r, g := g, b := b } } := by
  simp only [applyMessage, hc]

/-! ### Claim theorems -/

/-- Claim C5 (confirmed): for every Color whose channels are in the `u8` range,
applying the local toggle (`255 − channel`, per channel) twice returns the
original color: the per-channel complement is its own inverse. -/
theorem claim5_toggle_involutive (c : Color) (hr : c.r ≤ 255) (hg : c.g ≤ 255)
    (hb : c.b ≤ 255) : toggleColor (toggleColor c) = c := by
  cases c
  dsimp only at hr hg hb
  simp only [toggleColor, Color.mk.injEq]
  omega

/-- Witness for C5 at the concrete color (12, 200, 255). -/
theorem claim5_toggle_involutive_witness :
    toggleColor (toggleColor { r := 12, g := 200, b := 255 }) = { r := 12, g := 200, b := 255 } :=
  claim5_toggle_involutive { r := 12, g := 200, b := 255 } (by decide) (by decide) (by decide)

/-- Claim C3 (confirmed): applying an inbound `ColorUpdate` whose entity id is
not a key of the Color storage leaves the whole World unchanged; in particular,
for a grid initialized from a fresh World, any id ≥ the allocated entity count
(`N²`) is not a key, so such an update is a no-op. -/
theorem claim3_colorUpdate_unknown_entity_noop (w : World) (e r g b : Nat) :
    (w.colors.get e = none → applyMessage w (MessageType.ColorUpdate e r g b) = w)
    ∧ (∀ N C, N < 65536 → N * N ≤ e →
        applyMessage (initGrid N C World.new) (MessageType.ColorUpdate e r g b)
          = initGrid N C World.new) := by
  constructor
  · intro hc
    exact applyMessage_unknown w e r g b hc
  · intro N C hN he
    have hNN : N * N < u32Size := by
      calc N * N ≤ 65535 * 65535 := Nat.mul_le_mul (by omega) (by omega)
        _ < u32Size := by norm_num [u32Size]
    have hnone : (initGrid N C World.new).colors.get e = none := by
      rw [initGrid_eq_rowFold]
      exact ((gridFold_spec N C hNN N le_rfl).2.2 e he).2.2
    exact applyMessage_unknown _ e r g b hnone

/-- Witness for C3: a fresh World has no Color keys at all, and in an 8×8 grid
the id 64 (= the allocated count) is unknown. -/
theorem claim3_colorUpdate_unknown_entity_noop_witness :
    applyMessage World.new (MessageType.ColorUpdate 5 1 2 3) = World.new
    ∧ applyMessage (initGrid 8 50 World.new) (MessageType.ColorUpdate 64 9 9 9)
        = initGrid 8 50 World.new :=
  ⟨(claim3_colorUpdate_unknown_entity_noop World.new 5 1 2 3).1 rfl,
   (claim3_colorUpdate_unknown_entity_noop (initGrid 8 50 World.new) 64 9 9 9).2 8 50
     (by decide) (by decide)⟩

/-- Claim C4 (confirmed): for every payload string on which the decoder fails
(non-JSON text, unknown tag, or missing/mistyped fields), the inbound handler
leaves the World unchanged; being a total function into `World`, it raises
nothing to the caller. -/
theorem claim4_decode_failure_noop (decode : String → Option MessageType) (s : String)
    (w : World) (hd : decode s = none) : handleIncoming decode s w = w := by
  simp only [handleIncoming, hd]

/-- Witness for C4: the modelled serde decoder rejects a non-JSON payload and
the handler is a no-op on it. -/
theorem claim4_decode_failure_noop_witness :
    handleIncoming MessageType.fromJson "this is not a message" World.new = World.new :=
  claim4_decode_failure_noop MessageType.fromJson "this is not a message" World.new (by decide)

/-- Claim C6 (code_bug): the spec requires entity-id exhaustion to abort rather
than wrap, and ids never to be reused; the code's unchecked `u32` increment
instead wraps the counter around, and the very next allocation re-issues id 0,
which was already handed out.  This theorem evaluates `create_entity` at the
failing input (a World whose counter has reached `u32::MAX`). -/
theorem claim6_create_entity_wraps_at_max :
    (({ World.new with next_entity_id := 4294967295 } : World).create_entity).1 = 4294967295
    ∧ (({ World.new with next_entity_id := 4294967295 } : World).create_entity).2.next_entity_id
        = 0
    ∧ ((({ World.new with next_entity_id := 4294967295 } : World).create_entity).2.create_entity).1
        = 0 := by
  refine ⟨rfl, ?_, ?_⟩ <;> decide

/-- Claim C2 (corrected): for every grid dimension `N < 2^16` — so that the
`N²` allocations fit the `u32` id space without wrapping — and every cell size
`C`, initializing a fresh World produces exactly `N²` entities: the allocation
counter ends at `N²`, the entity of the cell at row `y`, column `x` is
`y·N + x` and carries Position `(x·C, y·C)`, Size `(C, C)` and Color
`(255,255,255)`, and no id ≥ `N²` has any component.  (Determinism is inherent:
`initGrid` is a pure function of `N` and `C`.)  Without the `N < 2^16` bound
the statement is false, see the counterexample. -/
theorem claim2_initGrid_spec (N : Nat) (C : ℚ) (hN : N < 65536) :
    (initGrid N C World.new).next_entity_id = N * N
    ∧ (∀ yv xv, yv < N → xv < N →
        (initGrid N C World.new).positions.get (yv * N + xv)
            = some { x := (xv : ℚ) * C, y := (yv : ℚ) * C }
        ∧ (initGrid N C World.new).sizes.get (yv * N + xv)
            = some { width := C, height := C }
        ∧ (initGrid N C World.new).colors.get (yv * N + xv)
            = some { r := 255, g := 255, b := 255 })
    ∧ (∀ k, N * N ≤ k →
        (initGrid N C World.new).positions.get k = none
        ∧ (initGrid N C World.new).sizes.get k = none
        ∧ (initGrid N C World.new).colors.get k = none) := by
  have hNN : N * N < u32Size := by
    calc N * N ≤ 65535 * 65535 := Nat.mul_le_mul (by omega) (by omega)
      _ < u32Size := by norm_num [u32Size]
  rw [initGrid_eq_rowFold]
  exact gridFold_spec N C hNN N le_rfl

/-- Witness for C2 on a concrete 2×2 grid with cell size 50. -/
theorem claim2_initGrid_spec_witness :
    (initGrid 2 50 World.new).next_entity_id = 2 * 2
    ∧ (initGrid 2 50 World.new).positions.get (1 * 2 + 0)
        = some { x := (0 : ℚ) * 50, y := (1 : ℚ) * 50 }
    ∧ (initGrid 2 50 World.new).colors.get 7 = none :=
  ⟨(claim2_initGrid_spec 2 50 (by decide)).1,
   ((claim2_initGrid_spec 2 50 (by decide)).2.1 1 0 (by decide) (by decide)).1,
   ((claim2_initGrid_spec 2 50 (by decide)).2.2 7 (by decide)).2.2⟩

/-- Counterexample for C2 as frozen: the claim quantifies over *every* grid
dimension `N`, but at `N = 2^17` the `u32` allocation counter wraps around
(`N² = 2^34 ≡ 0 (mod 2^32)`), so initialization does not produce `N²`
entities — the allocated count ends at 0. -/
theorem claim2_initGrid_counterexample :
    (initGrid 131072 50 World.new).next_entity_id ≠ 131072 * 131072 := by
  rw [initGrid_next_mod]
  decide

/-- Claim C1 (corrected): the source loop of `Game::handle_click` has no early
exit, so it does not stop at the *first* hit.  For every game state and every
point: every entity whose boundary-inclusive rectangle contains the point has
its Color toggled, and — when a socket is attached — a `ColorUpdate` carrying
the toggled color is emitted for every such entity, with the entity ids of the
emitted messages in strictly ascending order.  In particular a point exactly on
the shared boundary of two adjacent cells (a point both rectangles contain)
toggles and reports both cells, the lower id first.  The outcome is
deterministic: `handle_click` is a pure function of the world and the point. -/
theorem claim1_click_toggles_all_matches (g : Game) (x y : ℚ) :
    (∀ e pos size c, e < g.world.next_entity_id →
        g.world.positions.get e = some pos → g.world.sizes.get e = some size →
        g.world.colors.get e = some c →
        (x ≥ pos.x ∧ x ≤ pos.x + size.width ∧ y ≥ pos.y ∧ y ≤ pos.y + size.height) →
        ((g.handle_click x y).1.colors.get e = some (toggleColor c)
        ∧ (g.ws = true →
            MessageType.ColorUpdate e (toggleColor c).r (toggleColor c).g (toggleColor c).b
              ∈ (g.handle_click x y).2)))
    ∧ List.Pairwise (fun m₁ m₂ => m₁.entity < m₂.entity) (g.handle_click x y).2 := by
  obtain ⟨w, wsb, n⟩ := g
  constructor
  · intro e pos size c he hp hs hc hhit
    refine ⟨?_, ?_⟩
    · exact clickFold_toggle wsb x y (List.range w.next_entity_id) (w, []) e pos size c
        (List.nodup_range _) (List.mem_range.mpr he) hp hs hc hhit
    · intro hws
      have hws' : wsb = true := hws
      subst hws'
      exact clickFold_msg_of_hit x y (List.range w.next_entity_id) (w, []) e pos size c
        (List.mem_range.mpr he) hp hs hc hhit
  · obtain ⟨t, h1, h2⟩ := clickFold_msgs_sublist wsb x y (List.range w.next_entity_id) (w, [])
    show List.Pairwise (fun m₁ m₂ => m₁.entity < m₂.entity)
      ((List.range w.next_entity_id).foldl (clickStep wsb x y) (w, [])).2
    rw [h1, List.nil_append]
    exact List.pairwise_map.mp (List.Pairwise.sublist h2 (List.pairwise_lt_range _))

/-- Witness for C1 at the boundary click (50,5) on the fresh, connected 8×8/50
grid: the later-id neighbour cell 1 (whose rectangle also contains the point)
is toggled, its update is among the emitted messages, and the emitted entity
ids are ascending. -/
theorem claim1_click_toggles_all_matches_witness :
    ((Game.new.connect.init).handle_click 50 5).1.colors.get 1
        = some (toggleColor { r := 255, g := 255, b := 255 })
    ∧ MessageType.ColorUpdate 1 (toggleColor { r := 255, g := 255, b := 255 }).r
        (toggleColor { r := 255, g := 255, b := 255 }).g
        (toggleColor { r := 255, g := 255, b := 255 }).b
        ∈ ((Game.new.connect.init).handle_click 50 5).2
    ∧ List.Pairwise (fun m₁ m₂ => m₁.entity < m₂.entity)
        ((Game.new.connect.init).handle_click 50 5).2 :=
  ⟨((claim1_click_toggles_all_matches (Game.new.connect.init) 50 5).1 1
      { x := (1 : ℚ) * 50, y := (0 : ℚ) * 50 } { width := 50, height := 50 }
      { r := 255, g := 255, b := 255 } (by decide) (by decide) (by decide) (by decide)
      (by decide)).1,
   ((claim1_click_toggles_all_matches (Game.new.connect.init) 50 5).1 1
      { x := (1 : ℚ) * 50, y := (0 : ℚ) * 50 } { width := 50, height := 50 }
      { r := 255, g := 255, b := 255 } (by decide) (by decide) (by decide) (by decide)
      (by decide)).2 rfl,
   (claim1_click_toggles_all_matches (Game.new.connect.init) 50 5).2⟩

/-- Counterexample for C1 as frozen: the claim says that for a point on the
shared boundary of two adjacent cells "no later-id cell containing the same
point is toggled"; but after clicking `(50, 5)` on the fresh 8×8/50 grid, cell
1 (the later-id neighbour, whose rectangle also contains the point) has been
toggled to `(0,0,0)`. -/
theorem claim1_boundary_click_counterexample :
    ((Game.new.init).handle_click 50 5).1.colors.get 1 = some { r := 0, g := 0, b := 0 } := by
  decide

/-- Claim C7 (confirmed): the world that results from `handle_click` does not
depend on whether a transport is attached (`ws`) — and since the source ignores
the result of `send_with_str`, it cannot depend on transmission success either;
moreover every hit cell that has a Color gets its toggled color written into the
World.  The handler is a total function: it raises nothing. -/
theorem claim7_local_toggle_unconditional (g₁ g₂ : Game) (x y : ℚ)
    (hw : g₁.world = g₂.world) :
    (g₁.handle_click x y).1 = (g₂.handle_click x y).1
    ∧ (∀ e pos size c, e < g₁.world.next_entity_id →
        g₁.world.positions.get e = some pos → g₁.world.sizes.get e = some size →
        g₁.world.colors.get e = some c →
        (x ≥ pos.x ∧ x ≤ pos.x + size.width ∧ y ≥ pos.y ∧ y ≤ pos.y + size.height) →
        (g₁.handle_click x y).1.colors.get e = some (toggleColor c)) := by
  obtain ⟨w₁, ws₁, n₁⟩ := g₁
  obtain ⟨w₂, ws₂, n₂⟩ := g₂
  simp only at hw
  subst hw
  constructor
  · exact clickFold_fst_irrel ws₁ ws₂ x y (List.range w₁.next_entity_id) w₁ [] []
  · intro e pos size c he hp hs hc hhit
    exact clickFold_toggle ws₁ x y (List.range w₁.next_entity_id) (w₁, []) e pos size c
      (List.nodup_range _) (List.mem_range.mpr he) hp hs hc hhit

/-- Witness for C7: same world with and without a socket, clicked at (5,5):
identical world results, and entity 0 carries the toggled color. -/
theorem claim7_local_toggle_unconditional_witness :
    ((Game.new.init).handle_click 5 5).1 = ((Game.new.connect.init).handle_click 5 5).1
    ∧ ((Game.new.init).handle_click 5 5).1.colors.get 0
        = some (toggleColor { r := 255, g := 255, b := 255 }) :=
  ⟨(claim7_local_toggle_unconditional (Game.new.init) (Game.new.connect.init) 5 5 rfl).1,
   (claim7_local_toggle_unconditional (Game.new.init) (Game.new.init) 5 5 rfl).2 0
     { x := (0 : ℚ) * 50, y := (0 : ℚ) * 50 } { width := 50, height := 50 }
     { r := 255, g := 255, b := 255 } (by decide) (by decide) (by decide) (by decide) (by decide)⟩

/-- Claim C9 (confirmed): the component-consistency invariant — every entity
with a Color also has a Position and a Size — holds of a fresh World and is
preserved by grid initialization, by the click handler, and by the inbound
message handler; no operation creates a partial entity. -/
theorem claim9_world_invariant_preserved :
    WorldInv World.new
    ∧ (∀ N C w, WorldInv w → WorldInv (initGrid N C w))
    ∧ (∀ (g : Game) (x y : ℚ), WorldInv g.world → WorldInv (g.handle_click x y).1)
    ∧ (∀ w m, WorldInv w → WorldInv (applyMessage w m)) := by
  refine ⟨WorldInv_new, fun N C w h => initGrid_inv N C w h, ?_,
    fun w m h => applyMessage_inv w m h⟩
  intro g x y h
  exact clickFold_inv g.ws x y (List.range g.world.next_entity_id) (g.world, []) h

/-- Witness for C9 along a concrete session: init, a boundary click, an inbound
update. -/
theorem claim9_world_invariant_preserved_witness :
    WorldInv (initGrid 8 50 World.new)
    ∧ WorldInv ((Game.new.connect.init).handle_click 50 5).1
    ∧ WorldInv (applyMessage (initGrid 8 50 World.new) (MessageType.ColorUpdate 0 1 2 3)) :=
  ⟨claim9_world_invariant_preserved.2.1 8 50 World.new WorldInv_new,
   claim9_world_invariant_preserved.2.2.1 (Game.new.connect.init) 50 5
     (claim9_world_invariant_preserved.2.1 8 50 World.new WorldInv_new),
   claim9_world_invariant_preserved.2.2.2 (initGrid 8 50 World.new)
     (MessageType.ColorUpdate 0 1 2 3)
     (claim9_world_invariant_preserved.2.1 8 50 World.new WorldInv_new)⟩

/-- Claim C10 (confirmed): a hit on an entity that has Position and Size but no
stored Color produces neither a mutation nor a `ColorUpdate`: if every hit
entity lacks a Color the click handler returns the world unchanged with no
outbound messages, and an entity without a Color never gains one and is never
the subject of an outbound message, whatever else the click hits. -/
theorem claim10_colorless_hit_no_effect (g : Game) (x y : ℚ) :
    ((∀ e, e < g.world.next_entity_id → ∀ pos size,
        g.world.positions.get e = some pos → g.world.sizes.get e = some size →
        (x ≥ pos.x ∧ x ≤ pos.x + size.width ∧ y ≥ pos.y ∧ y ≤ pos.y + size.height) →
        g.world.colors.get e = none) →
      g.handle_click x y = (g.world, []))
    ∧ (∀ e, g.world.colors.get e = none →
        ((g.handle_click x y).1.colors.get e = none
        ∧ ∀ r gr b, MessageType.ColorUpdate e r gr b ∉ (g.handle_click x y).2)) := by
  constructor
  · intro h
    exact clickFold_id_of_all_miss g.ws x y (List.range g.world.next_entity_id) (g.world, [])
      (fun e he pos size hp hs hhit => h e (List.mem_range.mp he) pos size hp hs hhit)
  · intro e hc
    constructor
    · exact clickFold_colors_none g.ws x y (List.range g.world.next_entity_id) (g.world, []) e hc
    · intro r gr b hmem
      exact absurd
        (clickFold_no_msg_for g.ws x y (List.range g.world.next_entity_id) (g.world, []) e hc
          r gr b hmem)
        (List.not_mem_nil _)

/-- Witness for C10: a world with a single Position+Size entity and no Color,
clicked inside that entity's rectangle: nothing changes and nothing is sent. -/
theorem claim10_colorless_hit_no_effect_witness :
    ({ world := posSizeOnlyWorld, ws := true, grid_size := 8 } : Game).handle_click 10 10
        = (posSizeOnlyWorld, [])
    ∧ (({ world := posSizeOnlyWorld, ws := true, grid_size := 8 } : Game).handle_click 10 10).1.colors.get 0
        = none :=
  ⟨(claim10_colorless_hit_no_effect { world := posSizeOnlyWorld, ws := true, grid_size := 8 }
      10 10).1 (fun _ _ _ _ _ _ _ => rfl),
   ((claim10_colorless_hit_no_effect { world := posSizeOnlyWorld, ws := true, grid_size := 8 }
      10 10).2 0 rfl).1⟩

/-- Claim C8 (confirmed), end to end: on a fresh 8×8/50 session with the socket
attached, entity 0 starts white; a click at local coordinates (5,5) toggles it
to (0,0,0) and produces exactly one outbound message, whose serialized form is
the exact `ColorUpdate` payload of the spec; delivering that exact payload to a
second, independently initialized 8×8/50 session sets its entity 0 to (0,0,0). -/
theorem claim8_end_to_end_click_roundtrip :
    (Game.new.connect.init).world.colors.get 0 = some { r := 255, g := 255, b := 255 }
    ∧ ((Game.new.connect.init).handle_click 5 5).1.colors.get 0
        = some { r := 0, g := 0, b := 0 }
    ∧ ((Game.new.connect.init).handle_click 5 5).2 = [MessageType.ColorUpdate 0 0 0 0]
    ∧ MessageType.toJson (MessageType.ColorUpdate 0 0 0 0)
        = "\x7b\"ColorUpdate\":\x7b\"entity\":0,\"r\":0,\"g\":0,\"b\":0\x7d\x7d"
    ∧ (handleIncoming MessageType.fromJson
        "\x7b\"ColorUpdate\":\x7b\"entity\":0,\"r\":0,\"g\":0,\"b\":0\x7d\x7d"
        (Game.new.init).world).colors.get 0 = some { r := 0, g := 0, b := 0 } := by
  refine ⟨?_, ?_, ?_, ?_, ?_⟩ <;> decide
